import Mathlib

/-!
# Verification of the woostream event-streaming client

Shallow embedding of the woostream source (`src/woostream/__main__.py` and the
older standalone script `src/__main__.py`) together with proofs about the
claims of its specification: the request signer (HMAC-SHA256 over a canonical
parameter string), the REST snapshot client, the WebSocket stream session
(auth / subscribe / ping / yield loop with reconnection), and the stream
merger.

Machine integers do not occur in the source (Python integers are unbounded);
the SHA-256 core below works on `Nat` with explicit reduction modulo `2^32`.
-/

namespace Woostream

/-! ## Bytes, UTF-8 and hex encoding

`bytes(s, "utf-8")` in the source encodes a Python `str` as UTF-8; bytes are
modelled as `Nat` values below 256. -/

/-- Standard UTF-8 encoding of one code point (what Python's `str.encode`
produces per character). -/
def utf8EncodeChar (c : Char) : List Nat :=
  let n := c.toNat
  if n < 0x80 then [n]
  else if n < 0x800 then [0xC0 ||| (n >>> 6), 0x80 ||| (n &&& 0x3F)]
  else if n < 0x10000 then
    [0xE0 ||| (n >>> 12), 0x80 ||| ((n >>> 6) &&& 0x3F), 0x80 ||| (n &&& 0x3F)]
  else
    [0xF0 ||| (n >>> 18), 0x80 ||| ((n >>> 12) &&& 0x3F),
     0x80 ||| ((n >>> 6) &&& 0x3F), 0x80 ||| (n &&& 0x3F)]

/-- `bytes(s, "utf-8")`: UTF-8 bytes of a string. -/
def utf8 (s : String) : List Nat :=
  (s.data.map utf8EncodeChar).flatten

/-- Lowercase hex digit, as produced by Python's `hexdigest()`. -/
def hexChar (n : Nat) : Char :=
  if n < 10 then Char.ofNat (48 + n) else Char.ofNat (87 + n)

/-- Two lowercase hex digits of one byte. -/
def byteToHex (b : Nat) : List Char := [hexChar (b / 16), hexChar (b % 16)]

/-- `hexdigest()`: lowercase hex encoding of a byte sequence. -/
def hexdigest (bytes : List Nat) : String :=
  String.mk ((bytes.map byteToHex).flatten)

/-- Python's `str.upper()` on the character sequence (for the ASCII output of
`hexdigest` this is exactly ASCII uppercasing). -/
def pyUpper (s : String) : String := String.mk (s.data.map Char.toUpper)

/-! ## SHA-256 (`hashlib.sha256`)

Straight transcription of FIPS 180-4, on `Nat` words reduced mod `2^32`. -/

/-- Truncate to a 32-bit word. -/
def w32 (n : Nat) : Nat := n % 4294967296

/-- Right rotation of a 32-bit word. -/
def rotr (x n : Nat) : Nat := w32 ((x >>> n) ||| (x <<< (32 - n)))

def shaCh (x y z : Nat) : Nat := (x &&& y) ^^^ ((x ^^^ 0xFFFFFFFF) &&& z)

def shaMaj (x y z : Nat) : Nat := (x &&& y) ^^^ (x &&& z) ^^^ (y &&& z)

def bigSigma0 (x : Nat) : Nat := rotr x 2 ^^^ rotr x 13 ^^^ rotr x 22

def bigSigma1 (x : Nat) : Nat := rotr x 6 ^^^ rotr x 11 ^^^ rotr x 25

def smallSigma0 (x : Nat) : Nat := rotr x 7 ^^^ rotr x 18 ^^^ (x >>> 3)

def smallSigma1 (x : Nat) : Nat := rotr x 17 ^^^ rotr x 19 ^^^ (x >>> 10)

/-- The sixty-four round constants of FIPS 180-4 §4.2.2 (cube-root
fractional parts of the first 64 primes), written in decimal. -/
def shaK : List Nat :=
  [1116352408, 1899447441, 3049323471, 3921009573, 961987163,
   1508970993, 2453635748, 2870763221, 3624381080, 310598401,
   607225278, 1426881987, 1925078388, 2162078206, 2614888103,
   3248222580, 3835390401, 4022224774, 264347078, 604807628,
   770255983, 1249150122, 1555081692, 1996064986, 2554220882,
   2821834349, 2952996808, 3210313671, 3336571891, 3584528711,
   113926993, 338241895, 666307205, 773529912, 1294757372,
   1396182291, 1695183700, 1986661051, 2177026350, 2456956037,
   2730485921, 2820302411, 3259730800, 3345764771, 3516065817,
   3600352804, 4094571909, 275423344, 430227734, 506948616,
   659060556, 883997877, 958139571, 1322822218, 1537002063,
   1747873779, 1955562222, 2024104815, 2227730452, 2361852424,
   2428436474, 2756734187, 3204031479, 3329325298]

/-- The initial hash words of FIPS 180-4 §5.3.3, in decimal. -/
def shaH0 : List Nat :=
  [1779033703, 3144134277, 1013904242, 2773480762,
   1359893119, 2600822924, 528734635, 1541459225]

/-- Big-endian bytes of a number, `k` bytes wide. -/
def toBytesBE (k n : Nat) : List Nat :=
  (List.range k).map (fun i => (n >>> (8 * (k - 1 - i))) % 256)

/-- SHA-256 padding: append `0x80`, zeros up to 56 mod 64, then the bit
length as 8 big-endian bytes. -/
def padMessage (msg : List Nat) : List Nat :=
  msg ++ [0x80] ++ List.replicate ((119 - msg.length % 64) % 64) 0
      ++ toBytesBE 8 (msg.length * 8)

/-- Split a byte sequence into 64-byte blocks.  Structural recursion on a
fuel counter (each step consumes at least one byte, so `l.length` fuel always
suffices); this keeps the definition kernel-reducible. -/
def chunks64Go (fuel : Nat) (l : List Nat) : List (List Nat) :=
  match fuel, l with
  | 0, _ => []
  | _, [] => []
  | fuel + 1, b :: rest => ((b :: rest).take 64) :: chunks64Go fuel ((b :: rest).drop 64)

/-- Split a byte sequence into 64-byte blocks. -/
def chunks64 (l : List Nat) : List (List Nat) := chunks64Go l.length l

/-- Big-endian 32-bit word from up to four bytes. -/
def bytesToWord (bs : List Nat) : Nat := bs.foldl (fun acc b => acc * 256 + b) 0

/-- The sixteen words of one 64-byte block. -/
def blockWords (block : List Nat) : List Nat :=
  (List.range 16).map (fun i => bytesToWord ((block.drop (4 * i)).take 4))

/-- Next word of the message schedule, from the words produced so far. -/
def scheduleNext (w : List Nat) : Nat :=
  w32 (w.getD (w.length - 16) 0 + smallSigma0 (w.getD (w.length - 15) 0) +
       w.getD (w.length - 7) 0 + smallSigma1 (w.getD (w.length - 2) 0))

/-- The 64-word message schedule of one block. -/
def schedule (block : List Nat) : List Nat :=
  (List.range 48).foldl (fun w _ => w ++ [scheduleNext w]) (blockWords block)

/-- One SHA-256 round on the eight working variables. -/
def roundStep (st : Nat × Nat × Nat × Nat × Nat × Nat × Nat × Nat)
    (wk : Nat × Nat) : Nat × Nat × Nat × Nat × Nat × Nat × Nat × Nat :=
  match st, wk with
  | (a, b, c, d, e, f, g, h), (wt, kt) =>
    let t1 := w32 (h + bigSigma1 e + shaCh e f g + kt + wt)
    let t2 := w32 (bigSigma0 a + shaMaj a b c)
    (w32 (t1 + t2), a, b, c, w32 (d + t1), e, f, g)

/-- SHA-256 compression of one block into the running hash. -/
def compress (hs : List Nat) (block : List Nat) : List Nat :=
  let ws := schedule block
  let a0 := hs.getD 0 0
  let b0 := hs.getD 1 0
  let c0 := hs.getD 2 0
  let d0 := hs.getD 3 0
  let e0 := hs.getD 4 0
  let f0 := hs.getD 5 0
  let g0 := hs.getD 6 0
  let h0 := hs.getD 7 0
  match (ws.zip shaK).foldl roundStep (a0, b0, c0, d0, e0, f0, g0, h0) with
  | (a, b, c, d, e, f, g, h) =>
    [w32 (a0 + a), w32 (b0 + b), w32 (c0 + c), w32 (d0 + d),
     w32 (e0 + e), w32 (f0 + f), w32 (g0 + g), w32 (h0 + h)]

/-- `hashlib.sha256(msg).digest()`: the 32-byte SHA-256 digest. -/
def sha256 (msg : List Nat) : List Nat :=
  (((chunks64 (padMessage msg)).foldl compress shaH0).map (toBytesBE 4)).flatten

/-- `hmac.new(key, msg, hashlib.sha256).digest()` (RFC 2104, block 64). -/
def hmacSha256 (key msg : List Nat) : List Nat :=
  let k0 := if 64 < key.length then sha256 key else key
  let kp := k0 ++ List.replicate (64 - k0.length) 0
  sha256 ((kp.map (fun b => b ^^^ 0x5c)) ++
          sha256 ((kp.map (fun b => b ^^^ 0x36)) ++ msg))

/-! ## The signer (`signature` in both source files)

`sorted(kwargs.items())` sorts the key/value pairs by Python tuple
comparison: lexicographically by key, then by value.  Python's `sorted` is
stable, but on a total antisymmetric order the sorted arrangement is unique,
so insertion sort produces the same list. -/

/-- Python tuple order on `(key, value)` pairs of strings, as used by
`sorted(kwargs.items())`. -/
def pairLe (a b : String × String) : Prop :=
  a.1 < b.1 ∨ (a.1 = b.1 ∧ a.2 ≤ b.2)

instance : DecidableRel pairLe := fun a b =>
  decidable_of_iff (a.1 < b.1 ∨ (a.1 = b.1 ∧ a.2 ≤ b.2)) Iff.rfl

/-- Embedding of `signature(timestamp, api_key_secret, **kwargs)` from the
source: sort the parameters, join them as `key=value` with `&` (the `&` only
when the message is already non-empty), append `|timestamp`, then uppercase
the hex HMAC-SHA256 digest keyed by the secret. -/
def signature (timestamp : String) (api_key_secret : String)
    (kwargs : List (String × String)) : String :=
  let args := List.insertionSort pairLe kwargs
  let msg := args.foldl
    (fun m kv => (if m = "" then m else m ++ "&") ++ kv.1 ++ "=" ++ kv.2) ""
  let msg := msg ++ "|" ++ timestamp
  pyUpper (hexdigest (hmacSha256 (utf8 api_key_secret) (utf8 msg)))

/-! ## The signer contract as the spec words it

The spec describes the canonical message as: sort params by key ascending,
join as `k=v` pairs with `&`, append `|` + timestamp.  These definitions
follow the spec's words; the claims compare them with `signature` above. -/

/-- Order by key only, the spec's "sort params by key ascending". -/
def keyLe (a b : String × String) : Prop := a.1 ≤ b.1

instance : DecidableRel keyLe := fun a b => decidable_of_iff (a.1 ≤ b.1) Iff.rfl

/-- The spec's "join with `&`". -/
def joinAmp : List String → String
  | [] => ""
  | [p] => p
  | p :: q :: rest => p ++ "&" ++ joinAmp (q :: rest)

/-- Tail of an `&`-join: each part preceded by `&`. -/
def ampTail : List String → String
  | [] => ""
  | p :: rest => "&" ++ p ++ ampTail rest

/-- The spec's canonical message: sorted `key=value` pairs joined by `&`,
then `|` followed by the timestamp. -/
def specMessage (params : List (String × String)) (timestamp : String) : String :=
  joinAmp ((List.insertionSort keyLe params).map (fun kv => kv.1 ++ "=" ++ kv.2))
    ++ "|" ++ timestamp

/-! ### Order facts about the two sort relations -/

/-- Strict order on keys; used to identify the two sorted arrangements. -/
def keyLt (a b : String × String) : Prop := a.1 < b.1

instance : IsTrans (String × String) pairLe where
  trans a b c hab hbc := by
    rcases hab with h1 | ⟨h1, h1'⟩ <;> rcases hbc with h2 | ⟨h2, h2'⟩
    · exact Or.inl (lt_trans h1 h2)
    · exact Or.inl (h2 ▸ h1)
    · exact Or.inl (h1 ▸ h2)
    · exact Or.inr ⟨h1.trans h2, le_trans h1' h2'⟩

instance : IsTotal (String × String) pairLe where
  total a b := by
    rcases lt_trichotomy a.1 b.1 with h | h | h
    · exact Or.inl (Or.inl h)
    · rcases le_total a.2 b.2 with h' | h'
      · exact Or.inl (Or.inr ⟨h, h'⟩)
      · exact Or.inr (Or.inr ⟨h.symm, h'⟩)
    · exact Or.inr (Or.inl h)

instance : IsAntisymm (String × String) pairLe where
  antisymm a b hab hba := by
    rcases hab with h1 | ⟨h1, h1'⟩ <;> rcases hba with h2 | ⟨h2, h2'⟩
    · exact absurd h2 (lt_asymm h1)
    · exact absurd (h2 ▸ h1) (lt_irrefl _)
    · exact absurd (h1 ▸ h2) (lt_irrefl _)
    · exact Prod.ext h1 (le_antisymm h1' h2')

instance : IsTrans (String × String) keyLe where
  trans _ _ _ hab hbc := le_trans hab hbc

instance : IsTotal (String × String) keyLe where
  total a b := le_total a.1 b.1

instance : IsAntisymm (String × String) keyLt where
  antisymm _ _ h1 h2 := absurd (lt_trans h1 h2) (lt_irrefl _)

/-! ## Decoded JSON frames

The receive loops inspect a decoded frame only through `message.get('event')`
(compared with the string `'ping'`) and `'data' in message`, and the outbound
frames nest string-valued objects one level deep (the auth `params`).  JSON
values are therefore modelled to that depth: atoms, arrays of atoms and
string-keyed objects of atoms — no claim inspects anything deeper. -/

/-- An atomic JSON value. -/
inductive JAtom where
  | str (s : String)
  | num (n : Int)
  | bool (b : Bool)
  | null
  deriving DecidableEq

/-- A JSON value as deep as the claims inspect one. -/
inductive JVal where
  | atom (a : JAtom)
  | arr (elems : List JAtom)
  | obj (fields : List (String × JAtom))
  deriving DecidableEq

/-- A decoded JSON object frame (`json.loads` of a wire message; parsed
objects carry each key once). -/
abbrev Obj := List (String × JVal)

/-- `message.get('event') == 'ping'`: is this frame a server ping? -/
def isPingFrame (m : Obj) : Bool :=
  m.lookup "event" == some (JVal.atom (JAtom.str "ping"))

/-- `'data' in message`. -/
def hasData (m : Obj) : Bool := (m.lookup "data").isSome

/-! ## The Stream Session receive loop (`private_stream`)

```
async for raw_message in connection:
    message = json.loads(raw_message)
    if message.get('event') == 'ping': asyncio.ensure_future(ping())
    if 'data' not in message:
        continue
    yield topic, message
```
-/

/-- One pass of `private_stream`'s receive loop over the decoded frames of one
connection: returns the yielded `(topic, message)` pairs and the number of
ping replies scheduled. -/
def receiveLoop (topic : String) : List Obj → List (String × Obj) × Nat
  | [] => ([], 0)
  | m :: rest =>
    let pinged : Nat := if isPingFrame m then 1 else 0
    let r := receiveLoop topic rest
    if hasData m then ((topic, m) :: r.1, pinged + r.2)
    else (r.1, pinged + r.2)

/-- A raw inbound wire message: either it decodes to a JSON object, or
`json.loads` raises on it. -/
inductive Raw where
  | ok (m : Obj)
  | bad
  deriving DecidableEq

/-- One established connection of `websockets.connect`'s reconnect iterator:
the raw messages the connection delivers in order, and whether the iteration
ends in a transport fault (`endFault`) rather than a clean close. -/
structure Attempt where
  frames : List Raw
  endFault : Bool
  deriving DecidableEq

/-- What one connection attempt produced: yielded events, scheduled ping
replies, and the fault (if any) that the `except` clause caught. -/
structure AttemptResult where
  yields : List (String × Obj)
  pings : Nat
  fault : Option String
  deriving DecidableEq

/-- The receive loop of one connection, with faults: a frame that fails
`json.loads` aborts the attempt at that point (later frames of this
connection are never processed). -/
def runAttemptFrames (topic : String) : List Raw → List (String × Obj) × Nat × Option String
  | [] => ([], 0, none)
  | Raw.bad :: _ => ([], 0, some "JSONDecodeError")
  | Raw.ok m :: rest =>
    let pinged : Nat := if isPingFrame m then 1 else 0
    let r := runAttemptFrames topic rest
    if hasData m then ((topic, m) :: r.1, pinged + r.2.1, r.2.2)
    else (r.1, pinged + r.2.1, r.2.2)

/-- The whole `try:` body for one connection: decode faults come from the
frames; otherwise a transport fault may end the iteration.  Every fault is
caught by the `except Exception` clause and logged. -/
def runAttempt (topic : String) (a : Attempt) : AttemptResult :=
  let r := runAttemptFrames topic a.frames
  { yields := r.1
    pings := r.2.1
    fault :=
      match r.2.2 with
      | some e => some e
      | none => if a.endFault then some "ConnectionError" else none }

/-- The session after `n` connection attempts of the outer
`async for connection in websockets.connect(...)` loop: attempt `k`'s
outcome is processed, its fault (if any) appended to the error log, and the
loop then moves on to attempt `k+1` — there is no terminal state. -/
def runSession (topic : String) (attempts : Nat → Attempt) :
    Nat → List (String × Obj) × List String
  | 0 => ([], [])
  | n + 1 =>
    let prev := runSession topic attempts n
    let r := runAttempt topic (attempts n)
    (prev.1 ++ r.yields, prev.2 ++ r.fault.toList)

/-! ## The REST client (`private_request` / `position`) -/

/-- Decimal digit character (`'0'` to `'9'`). -/
def decChar (d : Nat) : Char := Char.ofNat (48 + d)

/-- Decimal digits of `n`, most significant first — Python's `str` of a
nonnegative integer.  Fuel recursion (the quotient shrinks at every step, so
any `fuel > n` suffices) keeps it kernel-reducible. -/
def natToDecAux : Nat → Nat → List Char
  | 0, _ => []
  | fuel + 1, n =>
    if n < 10 then [decChar n]
    else natToDecAux fuel (n / 10) ++ [decChar (n % 10)]

/-- Decimal representation of `n`. -/
def natToDec (n : Nat) : List Char := natToDecAux (n + 1) n

/-- Numeric value of a decimal digit string (used to invert `natToDec`). -/
def decValue (l : List Char) : Nat :=
  l.foldl (fun acc c => acc * 10 + (c.toNat - 48)) 0

/-- `str(int(time.time() * 1000))`, from this call's clock reading in
milliseconds. -/
def pyTimestamp (now_ms : Nat) : String := String.mk (natToDec now_ms)

/-- The headers `private_request` (and `position` in the standalone script)
attaches: the public key, a signature over the empty parameter set, and this
call's timestamp. -/
def private_request_headers (now_ms : Nat) (api_public_key api_secret_key : String) :
    List (String × String) :=
  [("x-api-key", api_public_key),
   ("x-api-signature", signature (pyTimestamp now_ms) api_secret_key []),
   ("x-api-timestamp", pyTimestamp now_ms)]

/-- An HTTP response as `private_request` consumes it: the status code, and
the body as JSON — `none` when the body is not valid JSON, in which case
`await response.json()` raises and `content` is never assigned. -/
structure HttpResponse where
  status : Nat
  jsonBody : Option JVal
  deriving DecidableEq

/-- Python truthiness of a decoded JSON value (`content or exception`). -/
def truthy : JVal → Bool
  | .atom (.str s) => !(s == "")
  | .atom (.num n) => !(n == 0)
  | .atom (.bool b) => b
  | .atom .null => false
  | .arr es => !es.isEmpty
  | .obj fs => !fs.isEmpty

/-- aiohttp's `response.raise_for_status()` raises exactly for status ≥ 400. -/
def raiseForStatusFails (status : Nat) : Bool := 400 ≤ status

/-- How `private_request`'s `try/except` ends: a normal return (with the
entries passed to `logging.error`, each either the decoded body or the
exception text), or an exception escaping the function. -/
inductive RequestOutcome where
  | ret (value : Option JVal) (logged : List (JVal ⊕ String))
  | raised (e : String)
  deriving DecidableEq

/-- Embedding of the `try/except` of `private_request`:
`content = await response.json()` (raises on a non-JSON body, leaving
`content` unbound), then `response.raise_for_status()`, then
`return content`; the handler runs `logging.error(content or exception)`,
which itself raises `UnboundLocalError` when `content` was never assigned. -/
def private_request_handle (resp : HttpResponse) : RequestOutcome :=
  match resp.jsonBody with
  | none => RequestOutcome.raised "UnboundLocalError: content"
  | some content =>
    if raiseForStatusFails resp.status then
      RequestOutcome.ret none
        [if truthy content then Sum.inl content else Sum.inr "ClientResponseError"]
    else
      RequestOutcome.ret (some content) []

/-! ## Endpoints and outbound frames -/

/-- The `--network` choices. -/
inductive Network where
  | mainnet
  | testnet
  deriving DecidableEq

/-- One row of the `ENDPOINTS` table. -/
structure EndpointSet where
  HTTP : String
  WS_PUBLIC : String
  WS_PRIVATE : String
  deriving DecidableEq

/-- The module-level `ENDPOINTS` table (identical in both source files). -/
def ENDPOINTS : Network → EndpointSet
  | .mainnet =>
    { HTTP := "https://api.woo.org"
      WS_PUBLIC := "wss://wss.woo.org/ws/stream/{application_id}"
      WS_PRIVATE := "wss://wss.woo.org/v2/ws/private/stream/{application_id}" }
  | .testnet =>
    { HTTP := "https://api.staging.woo.org"
      WS_PUBLIC := "wss://wss.staging.woo.org/ws/stream/{application_id}"
      WS_PRIVATE := "wss://wss.staging.woo.org/v2/ws/private/stream/{application_id}" }

/-- Replace each occurrence of `pat` in the character stream by `val`,
scanning left to right as Python's `str.format` substitutes a field.  Fuel
recursion (one unit per input character) keeps it kernel-reducible. -/
def replaceAux (pat val : List Char) : Nat → List Char → List Char
  | 0, l => l
  | _ + 1, [] => []
  | fuel + 1, c :: rest =>
    if pat ≠ [] ∧ (c :: rest).take pat.length = pat then
      val ++ replaceAux pat val fuel ((c :: rest).drop pat.length)
    else c :: replaceAux pat val fuel rest

/-- `template.format(application_id=value)` for the `ENDPOINTS` templates. -/
def pyFormat (template value : String) : String :=
  String.mk (replaceAux "{application_id}".data value.data template.data.length template.data)

/-- The URL `private_stream` opens:
`ENDPOINTS[network]['WS_PRIVATE'].format(application_id=application_id)`. -/
def private_stream_url (network : Network) (application_id : String) : String :=
  pyFormat (ENDPOINTS network).WS_PRIVATE application_id

/-- The URL `fills` (standalone script) opens:
`ENDPOINTS[network]['WS_PUBLIC'].format(application_id=application_id)`. -/
def fills_url (network : Network) (application_id : String) : String :=
  pyFormat (ENDPOINTS network).WS_PUBLIC application_id

/-- The auth frame `{'id': tag, 'event': 'auth', 'params': {'apikey': ...,
'sign': ..., 'timestamp': ...}}`. -/
def authFrame (tag apikey sign timestamp : String) : Obj :=
  [("id", JVal.atom (JAtom.str tag)),
   ("event", JVal.atom (JAtom.str "auth")),
   ("params", JVal.obj
     [("apikey", JAtom.str apikey), ("sign", JAtom.str sign),
      ("timestamp", JAtom.str timestamp)])]

/-- The subscribe frame `{"id": tag, "topic": topic, "event": "subscribe"}`. -/
def subscribeFrame (tag topic : String) : Obj :=
  [("id", JVal.atom (JAtom.str tag)),
   ("topic", JVal.atom (JAtom.str topic)),
   ("event", JVal.atom (JAtom.str "subscribe"))]

/-- The two outbound frames of `private_stream`'s `n`-th connection attempt.
`tokens n` is the value returned by the `n`-th call of
`secrets.token_urlsafe(8)` — the source calls it once per attempt, inside
the connection loop — and `clock n` is that attempt's `time.time() * 1000`
reading. -/
def private_stream_outbound (tokens : Nat → String) (clock : Nat → Nat)
    (api_public_key api_secret_key topic : String) (n : Nat) : Obj × Obj :=
  (authFrame (tokens n) api_public_key
      (signature (pyTimestamp (clock n)) api_secret_key []) (pyTimestamp (clock n)),
   subscribeFrame (tokens n) topic)

/-- The two outbound frames of the `n`-th attempt of `fills` in the
standalone script `src/__main__.py`: the correlation tag is the string
constant `'test'` on every attempt. -/
def fills_outbound (clock : Nat → Nat) (api_public_key api_secret_key : String)
    (n : Nat) : Obj × Obj :=
  (authFrame "test" api_public_key
      (signature (pyTimestamp (clock n)) api_secret_key []) (pyTimestamp (clock n)),
   subscribeFrame "test" "executionreport")

/-! ## The Stream Merger

`aiostream.stream.merge` is an external library; per the spec (§4.4, §9) the
merger is modelled from the spec's words as a fan-in: each source holds its
pending items in arrival order, and a schedule records which source the
consumer drains at each step.  An item polled from source `i` is yielded
tagged `(i, item)`. -/

/-- Modelled from the spec: run the fan-in under a polling schedule,
returning the merged output and each source's undrained remainder. -/
def mergeRun {α : Type} : (Nat → List α) → List Nat → List (Nat × α) × (Nat → List α)
  | srcs, [] => ([], srcs)
  | srcs, i :: rest =>
    match srcs i with
    | [] => mergeRun srcs rest
    | x :: xs =>
      let r := mergeRun (Function.update srcs i xs) rest
      ((i, x) :: r.1, r.2)

/-- The items of the merged output that came from source `i`, in order. -/
def fromSource {α : Type} (i : Nat) (out : List (Nat × α)) : List α :=
  (out.filter (fun p => p.1 == i)).map Prod.snd

/-! ## Proofs -/

/-- A `pairLe`-sorted list with pairwise-distinct keys is strictly sorted by
key. -/
theorem pairwise_keyLt_of_sorted_pairLe {l : List (String × String)}
    (hs : List.Sorted pairLe l) (hn : (l.map Prod.fst).Nodup) :
    l.Pairwise keyLt := by
  have hne : l.Pairwise (fun a b => a.1 ≠ b.1) := List.pairwise_map.mp hn
  refine (List.Pairwise.and hs hne).imp ?_
  rintro a b ⟨hle, hab⟩
  rcases hle with h | ⟨h, _⟩
  · exact h
  · exact absurd h hab

/-- A `keyLe`-sorted list with pairwise-distinct keys is strictly sorted by
key. -/
theorem pairwise_keyLt_of_sorted_keyLe {l : List (String × String)}
    (hs : List.Sorted keyLe l) (hn : (l.map Prod.fst).Nodup) :
    l.Pairwise keyLt := by
  have hne : l.Pairwise (fun a b => a.1 ≠ b.1) := List.pairwise_map.mp hn
  refine (List.Pairwise.and hs hne).imp ?_
  rintro a b ⟨hle, hab⟩
  exact lt_of_le_of_ne hle hab

/-- With distinct keys, Python's tuple sort and the spec's sort-by-key
produce the same list. -/
theorem insertionSort_pairLe_eq_keyLe (P : List (String × String))
    (hn : (P.map Prod.fst).Nodup) :
    List.insertionSort pairLe P = List.insertionSort keyLe P := by
  have hp1 : List.Perm (List.insertionSort pairLe P) P := List.perm_insertionSort pairLe P
  have hp2 : List.Perm (List.insertionSort keyLe P) P := List.perm_insertionSort keyLe P
  have hn1 : ((List.insertionSort pairLe P).map Prod.fst).Nodup :=
    ((hp1.map Prod.fst).symm).nodup hn
  have hn2 : ((List.insertionSort keyLe P).map Prod.fst).Nodup :=
    ((hp2.map Prod.fst).symm).nodup hn
  exact List.eq_of_perm_of_sorted (r := keyLt) (hp1.trans hp2.symm)
    (pairwise_keyLt_of_sorted_pairLe (List.sorted_insertionSort pairLe P) hn1)
    (pairwise_keyLt_of_sorted_keyLe (List.sorted_insertionSort keyLe P) hn2)

/-! ### The `&`-separated fold equals the spec's join -/

theorem append_amp_ne_empty (m p : String) : m ++ "&" ++ p ≠ "" := by
  intro h
  have hlen := congrArg String.length h
  simp only [String.length_append, String.length_empty,
    show ("&" : String).length = 1 from rfl] at hlen
  omega

theorem kv_part_ne_empty (k v : String) : k ++ "=" ++ v ≠ "" := by
  intro h
  have hlen := congrArg String.length h
  simp only [String.length_append, String.length_empty,
    show ("=" : String).length = 1 from rfl] at hlen
  omega

theorem foldl_sep_of_ne_empty (parts : List String) :
    ∀ m : String, m ≠ "" →
      parts.foldl (fun m s => (if m = "" then m else m ++ "&") ++ s) m
        = m ++ ampTail parts := by
  induction parts with
  | nil =>
    intro m _
    simp [ampTail]
  | cons p rest ih =>
    intro m hm
    simp only [List.foldl, if_neg hm, ampTail]
    rw [ih (m ++ "&" ++ p) (append_amp_ne_empty m p)]
    simp [String.append_assoc]

theorem joinAmp_cons : ∀ (rest : List String) (p : String),
    joinAmp (p :: rest) = p ++ ampTail rest
  | [], p => by simp [joinAmp, ampTail]
  | q :: r, p => by
    rw [show joinAmp (p :: q :: r) = p ++ "&" ++ joinAmp (q :: r) from rfl,
        joinAmp_cons r q]
    simp [ampTail, String.append_assoc]

/-- The source's "`&` only when the message is non-empty" fold computes the
spec's `&`-join, for parts that are never empty. -/
theorem foldl_sep_eq_joinAmp (parts : List String) (h : ∀ p ∈ parts, p ≠ "") :
    parts.foldl (fun m s => (if m = "" then m else m ++ "&") ++ s) ""
      = joinAmp parts := by
  cases parts with
  | nil => rfl
  | cons p rest =>
    have hp : p ≠ "" := h p (by simp)
    have hstep : (if ("" : String) = "" then ("" : String) else "" ++ "&") ++ p = p := by
      simp
    rw [List.foldl_cons, hstep, foldl_sep_of_ne_empty rest p hp, joinAmp_cons]

/-- The message built by the source's fold over sorted pairs is the spec's
join of `key=value` parts. -/
theorem source_msg_eq_joinAmp (args : List (String × String)) :
    args.foldl (fun m kv => (if m = "" then m else m ++ "&") ++ kv.1 ++ "=" ++ kv.2) ""
      = joinAmp (args.map (fun kv => kv.1 ++ "=" ++ kv.2)) := by
  have hmap := List.foldl_map (fun kv : String × String => kv.1 ++ "=" ++ kv.2)
    (fun m s => (if m = "" then m else m ++ "&") ++ s) args ""
  have hfun : (fun (m : String) (kv : String × String) =>
      (if m = "" then m else m ++ "&") ++ (kv.1 ++ "=" ++ kv.2)) =
      (fun (m : String) (kv : String × String) =>
      (if m = "" then m else m ++ "&") ++ kv.1 ++ "=" ++ kv.2) := by
    funext m kv
    simp [String.append_assoc]
  rw [hfun] at hmap
  rw [← hmap]
  refine foldl_sep_eq_joinAmp _ ?_
  intro p hp
  rcases List.mem_map.mp hp with ⟨kv, _, rfl⟩
  exact kv_part_ne_empty kv.1 kv.2








/-! ### Decimal rendering round-trip (for timestamp freshness) -/

theorem decChar_toNat {d : Nat} (h : d < 10) : (decChar d).toNat = 48 + d := by
  revert h
  revert d
  decide

theorem decValue_append_digit (l : List Char) (c : Char) :
    decValue (l ++ [c]) = 10 * decValue l + (c.toNat - 48) := by
  simp [decValue, List.foldl_append, Nat.mul_comm]

theorem decValue_natToDecAux : ∀ (fuel n : Nat), n < fuel →
    decValue (natToDecAux fuel n) = n := by
  intro fuel
  induction fuel with
  | zero => intro n h; exact absurd h (Nat.not_lt_zero n)
  | succ fuel ih =>
    intro n h
    by_cases h10 : n < 10
    · simp [natToDecAux, h10, decValue, decChar_toNat h10]
    · have hdiv : n / 10 < fuel := by
        have h1 : n / 10 < n := Nat.div_lt_self (by omega) (by omega)
        omega
      have hmod : n % 10 < 10 := Nat.mod_lt n (by omega)
      simp only [natToDecAux, h10, if_false, decValue_append_digit,
        ih (n / 10) hdiv, decChar_toNat hmod]
      omega

theorem pyTimestamp_injective : Function.Injective pyTimestamp := by
  intro m n h
  have hdata : natToDec m = natToDec n := by
    injection h
  have hm := decValue_natToDecAux (m + 1) m (Nat.lt_succ_self m)
  have hn := decValue_natToDecAux (n + 1) n (Nat.lt_succ_self n)
  rw [show natToDecAux (m + 1) m = natToDec m from rfl] at hm
  rw [show natToDecAux (n + 1) n = natToDec n from rfl] at hn
  rw [← hm, ← hn, hdata]

/-! ### The signer over an empty parameter set -/

theorem signature_empty_params (T S : String) :
    signature T S [] = pyUpper (hexdigest (hmacSha256 (utf8 S) (utf8 ("|" ++ T)))) := by
  show pyUpper (hexdigest (hmacSha256 (utf8 S) (utf8 ("" ++ "|" ++ T)))) = _
  rw [show ("" : String) ++ "|" ++ T = "|" ++ T from by simp]

/-! ### Claim C1 -/

set_option maxRecDepth 1000000 in
/-- C1: for every timestamp string `T`, secret `S` and parameter mapping `P`
(a mapping, so its keys are distinct), `signature T S P` is the uppercase
hex HMAC-SHA256, keyed by the UTF-8 bytes of `S`, of the message obtained by
sorting `P`'s entries by key ascending, joining them as `key=value` pairs
with `&` and appending `|` followed by `T`; in particular for `P = []`,
`S = "abc"`, `T = "1000"` the message is `"|1000"` and the signature is the
corresponding uppercase hex digest (the independently computed regression
fixture). -/
theorem C1_signature_matches_spec (T S : String) (P : List (String × String))
    (hP : (P.map Prod.fst).Nodup) :
    signature T S P
        = pyUpper (hexdigest (hmacSha256 (utf8 S) (utf8 (specMessage P T))))
      ∧ specMessage [] "1000" = "|1000"
      ∧ signature "1000" "abc" []
        = "7251255205C6699C8210AA405818AF69D22CED573867894CF71CF1D5390EBA5E" := by
  refine ⟨?_, by decide, by decide⟩
  show pyUpper (hexdigest (hmacSha256 (utf8 S) (utf8
      ((List.insertionSort pairLe P).foldl
        (fun m kv => (if m = "" then m else m ++ "&") ++ kv.1 ++ "=" ++ kv.2) ""
        ++ "|" ++ T))))
    = pyUpper (hexdigest (hmacSha256 (utf8 S) (utf8 (specMessage P T))))
  rw [insertionSort_pairLe_eq_keyLe P hP, source_msg_eq_joinAmp]
  rfl

/-- Witness for C1 at `T = "1000"`, `S = "abc"`,
`P = [("b", "2"), ("a", "1")]`. -/
theorem C1_signature_matches_spec_witness :
    (([("b", "2"), ("a", "1")] : List (String × String)).map Prod.fst).Nodup
      ∧ signature "1000" "abc" [("b", "2"), ("a", "1")]
        = pyUpper (hexdigest (hmacSha256 (utf8 "abc")
            (utf8 (specMessage [("b", "2"), ("a", "1")] "1000")))) :=
  ⟨by decide,
   (C1_signature_matches_spec "1000" "abc" [("b", "2"), ("a", "1")] (by decide)).1⟩

/-! ### Claim C5 -/

/-- C5: permuting the parameter list leaves the signature unchanged (for all
timestamps and secrets), and the signer is deterministic — two calls on
identical inputs return the same value. -/
theorem C5_signature_perm_invariant (T S : String) (P1 P2 : List (String × String))
    (hperm : List.Perm P1 P2) :
    signature T S P1 = signature T S P2 ∧ signature T S P1 = signature T S P1 := by
  refine ⟨?_, rfl⟩
  have hsort : List.insertionSort pairLe P1 = List.insertionSort pairLe P2 :=
    List.eq_of_perm_of_sorted
      ((List.perm_insertionSort pairLe P1).trans
        (hperm.trans (List.perm_insertionSort pairLe P2).symm))
      (List.sorted_insertionSort pairLe P1) (List.sorted_insertionSort pairLe P2)
  show pyUpper (hexdigest (hmacSha256 (utf8 S) (utf8
      ((List.insertionSort pairLe P1).foldl
        (fun m kv => (if m = "" then m else m ++ "&") ++ kv.1 ++ "=" ++ kv.2) ""
        ++ "|" ++ T))))
    = pyUpper (hexdigest (hmacSha256 (utf8 S) (utf8
      ((List.insertionSort pairLe P2).foldl
        (fun m kv => (if m = "" then m else m ++ "&") ++ kv.1 ++ "=" ++ kv.2) ""
        ++ "|" ++ T))))
  rw [hsort]

/-- Witness for C5: the two orderings of `{a: 1, b: 2}` sign identically. -/
theorem C5_signature_perm_invariant_witness :
    List.Perm ([("b", "2"), ("a", "1")] : List (String × String))
        [("a", "1"), ("b", "2")]
      ∧ signature "1000" "abc" [("b", "2"), ("a", "1")]
        = signature "1000" "abc" [("a", "1"), ("b", "2")] :=
  ⟨by decide,
   (C5_signature_perm_invariant "1000" "abc" _ _ (by decide)).1⟩

/-! ### Claim C2 -/

/-- C2: over any sequence of decoded object frames processed by one
connection's receive loop, the session yields exactly the frames containing
a `data` field — each exactly once, in arrival order, tagged with the topic
— schedules exactly one ping reply per frame whose `event` equals `"ping"`,
and never yields a frame lacking `data` (acks, pings, auth confirmations
included). -/
theorem C2_receive_loop_filters (topic : String) (frames : List Obj) :
    (receiveLoop topic frames).1
        = (frames.filter hasData).map (fun m => (topic, m))
      ∧ (receiveLoop topic frames).2 = frames.countP isPingFrame
      ∧ ∀ p ∈ (receiveLoop topic frames).1, hasData p.2 := by
  have main : (receiveLoop topic frames).1
        = (frames.filter hasData).map (fun m => (topic, m))
      ∧ (receiveLoop topic frames).2 = frames.countP isPingFrame := by
    induction frames with
    | nil => exact ⟨rfl, rfl⟩
    | cons m rest ih =>
      obtain ⟨h1, h2⟩ := ih
      by_cases hd : hasData m <;> by_cases hp : isPingFrame m <;>
        simp [receiveLoop, List.filter_cons, List.countP_cons, hd, hp, h1, h2] <;>
        omega
  refine ⟨main.1, main.2, ?_⟩
  intro p hp
  rw [main.1] at hp
  rcases List.mem_map.mp hp with ⟨m, hm, rfl⟩
  exact (List.mem_filter.mp hm).2

/-! ### Claim C3 -/

/-- C3: the stream session has no terminal state and never propagates a
fault: every error of an attempt (including a JSON decode failure on one
frame) is caught and recorded in the log, after which the session proceeds
to a brand-new connection attempt — after any number `n` of attempts the
session output is exactly the concatenation of every attempt's yields, the
error log exactly the concatenation of every attempt's caught fault, and
attempt `n + 1` always extends the run. -/
theorem C3_session_never_dies (topic : String) (attempts : Nat → Attempt) (n : Nat) :
    runSession topic attempts n
        = (((List.range n).map (fun k => (runAttempt topic (attempts k)).yields)).flatten,
           ((List.range n).map (fun k => (runAttempt topic (attempts k)).fault.toList)).flatten)
      ∧ (runSession topic attempts (n + 1)).1
        = (runSession topic attempts n).1 ++ (runAttempt topic (attempts n)).yields
      ∧ ∀ e, (runAttempt topic (attempts n)).fault = some e →
          e ∈ (runSession topic attempts (n + 1)).2 := by
  refine ⟨?_, rfl, ?_⟩
  · induction n with
    | zero => rfl
    | succ n ih =>
      simp only [runSession, ih, List.range_succ, List.map_append, List.flatten_append,
        List.map_cons, List.map_nil, List.flatten_cons, List.flatten_nil, List.append_nil]
  · intro e he
    show e ∈ (runSession topic attempts n).2 ++ (runAttempt topic (attempts n)).fault.toList
    rw [he]
    simp

/-- Witness for C3: a session whose every connection delivers one
undecodable frame keeps reconnecting; the decode fault that attempt 1
raised is caught and sits in the error log after attempt 2 has run. -/
theorem C3_session_never_dies_witness :
    (runAttempt "executionreport" (Attempt.mk [Raw.bad] false)).fault
        = some "JSONDecodeError"
      ∧ "JSONDecodeError"
        ∈ (runSession "executionreport" (fun _ => Attempt.mk [Raw.bad] false) 2).2 :=
  ⟨by decide,
   (C3_session_never_dies "executionreport" (fun _ => Attempt.mk [Raw.bad] false) 1).2.2
     "JSONDecodeError" (by decide)⟩

/-! ### Claim C4 -/

/-- C4 (the code deviates): on a response whose body is not valid JSON, the
`except` handler evaluates `logging.error(content or exception)` with
`content` unbound, so `UnboundLocalError` escapes `private_request` instead
of the failure being logged and an absent result returned; a non-2xx
response with a JSON body does log (the body when truthy, else the
exception) and return `None`, and a 2xx JSON response returns the content. -/
theorem C4_nonjson_body_raises :
    private_request_handle (HttpResponse.mk 200 none)
        = RequestOutcome.raised "UnboundLocalError: content"
      ∧ private_request_handle
          (HttpResponse.mk 500 (some (JVal.obj [("message", JAtom.str "err")])))
        = RequestOutcome.ret none [Sum.inl (JVal.obj [("message", JAtom.str "err")])]
      ∧ private_request_handle
          (HttpResponse.mk 200 (some (JVal.obj [("rows", JAtom.null)])))
        = RequestOutcome.ret (some (JVal.obj [("rows", JAtom.null)])) [] :=
  ⟨rfl, by decide, by decide⟩

/-! ### Claim C6 -/

/-- C6: an authenticated REST GET attaches exactly the headers `x-api-key`
(the public key), `x-api-signature` and `x-api-timestamp`; the signature is
computed over the empty parameter set, so the signed message is `"|"`
followed by the timestamp; and the timestamp is the decimal clock reading of
this very call — calls made at distinct clock readings carry distinct
timestamp headers, never a cached one. -/
theorem C6_private_request_headers_exact (t : Nat) (pub sec : String) :
    (private_request_headers t pub sec).map Prod.fst
        = ["x-api-key", "x-api-signature", "x-api-timestamp"]
      ∧ (private_request_headers t pub sec).lookup "x-api-key" = some pub
      ∧ (private_request_headers t pub sec).lookup "x-api-signature"
        = some (pyUpper (hexdigest (hmacSha256 (utf8 sec)
            (utf8 ("|" ++ pyTimestamp t)))))
      ∧ (private_request_headers t pub sec).lookup "x-api-timestamp"
        = some (pyTimestamp t)
      ∧ ∀ t' : Nat, t ≠ t' →
          (private_request_headers t pub sec).lookup "x-api-timestamp"
            ≠ (private_request_headers t' pub sec).lookup "x-api-timestamp" := by
  refine ⟨rfl, rfl, ?_, rfl, ?_⟩
  · show some (signature (pyTimestamp t) sec []) = _
    rw [signature_empty_params]
  · intro t' hne heq
    have heq' : some (pyTimestamp t) = some (pyTimestamp t') := heq
    exact hne (pyTimestamp_injective (Option.some.inj heq'))

/-- Witness for C6: two calls one millisecond apart get different timestamp
headers. -/
theorem C6_private_request_headers_exact_witness :
    ((1000 : Nat) ≠ 1001)
      ∧ (private_request_headers 1000 "pub" "sec").lookup "x-api-timestamp"
        ≠ (private_request_headers 1001 "pub" "sec").lookup "x-api-timestamp" :=
  ⟨by decide,
   (C6_private_request_headers_exact 1000 "pub" "sec").2.2.2.2 1001 (by decide)⟩

/-! ### Claim C7 (merger, modelled from the spec) -/

theorem fromSource_cons_self {α : Type} (i : Nat) (x : α) (out : List (Nat × α)) :
    fromSource i ((i, x) :: out) = x :: fromSource i out := by
  simp [fromSource, List.filter_cons]

theorem fromSource_cons_ne {α : Type} (i j : Nat) (x : α) (out : List (Nat × α))
    (h : j ≠ i) : fromSource i ((j, x) :: out) = fromSource i out := by
  simp [fromSource, List.filter_cons, h]

/-- Invariant of the fan-in: the output restricted to source `i`, followed by
`i`'s undrained remainder, is exactly `i`'s input queue. -/
theorem mergeRun_residual {α : Type} (sched : List Nat) :
    ∀ (srcs : Nat → List α) (i : Nat),
      fromSource i (mergeRun srcs sched).1 ++ (mergeRun srcs sched).2 i = srcs i := by
  induction sched with
  | nil => intro srcs i; simp [mergeRun, fromSource]
  | cons j rest ih =>
    intro srcs i
    rcases hj : srcs j with _ | ⟨x, xs⟩
    · simp only [mergeRun, hj]
      exact ih srcs i
    · simp only [mergeRun, hj]
      by_cases hij : j = i
      · subst hij
        rw [fromSource_cons_self, List.cons_append,
          ih (Function.update srcs j xs) j, Function.update_same, hj]
      · rw [fromSource_cons_ne _ _ _ _ hij,
          ih (Function.update srcs j xs) i, Function.update_noteq (Ne.symm hij)]

/-- If source `i` is polled at least as often as it has items, all of them
are delivered — no matter what the other sources do. -/
theorem mergeRun_complete {α : Type} (sched : List Nat) :
    ∀ (srcs : Nat → List α) (i : Nat), (srcs i).length ≤ sched.count i →
      fromSource i (mergeRun srcs sched).1 = srcs i := by
  induction sched with
  | nil =>
    intro srcs i h
    have h0 : (srcs i).length = 0 := by simpa using h
    rw [List.eq_nil_of_length_eq_zero h0]
    simp [mergeRun, fromSource]
  | cons j rest ih =>
    intro srcs i h
    rcases hj : srcs j with _ | ⟨x, xs⟩
    · simp only [mergeRun, hj]
      by_cases hij : i = j
      · subst hij
        have h0 := mergeRun_residual rest srcs i
        rw [hj] at h0
        rw [(List.append_eq_nil.mp h0).1, hj]
      · have hc : (srcs i).length ≤ rest.count i := by
          rwa [List.count_cons_of_ne hij] at h
        exact ih srcs i hc
    · simp only [mergeRun, hj]
      by_cases hij : j = i
      · subst hij
        rw [fromSource_cons_self]
        have hlen : ((Function.update srcs j xs) j).length ≤ rest.count j := by
          rw [Function.update_same]
          rw [List.count_cons_self] at h
          rw [hj] at h
          simpa using h
        rw [ih (Function.update srcs j xs) j hlen, Function.update_same, hj]
      · rw [fromSource_cons_ne _ _ _ _ hij]
        have hc : ((Function.update srcs j xs) i).length ≤ rest.count i := by
          rw [Function.update_noteq (Ne.symm hij)]
          rwa [List.count_cons_of_ne (Ne.symm hij)] at h
        rw [ih (Function.update srcs j xs) i hc, Function.update_noteq (Ne.symm hij)]

/-- C7 (merger modelled from the spec, `aiostream.stream.merge` being an
external library): the fan-in yields each upstream item exactly once and
preserves per-source arrival order — its output restricted to source `i`,
followed by `i`'s undrained remainder, is exactly `i`'s input — and every
source polled at least as often as it has items is delivered in full, even
if any other source stalls. -/
theorem C7_merge_exactly_once_in_order (α : Type) (srcs : Nat → List α)
    (sched : List Nat) (i : Nat) :
    (fromSource i (mergeRun srcs sched).1 ++ (mergeRun srcs sched).2 i = srcs i)
      ∧ ((srcs i).length ≤ sched.count i →
          fromSource i (mergeRun srcs sched).1 = srcs i) :=
  ⟨mergeRun_residual sched srcs i, fun h => mergeRun_complete sched srcs i h⟩

/-- Witness for C7 in the spec's own test shape: source A holds `[1, 2]`
then stalls, source B holds `[3]`; under a schedule that polls A, then B,
then A again, A is delivered in full (and in order). -/
theorem C7_merge_exactly_once_in_order_witness :
    (((fun j => ([[1, 2], [3]].getD j [] : List Nat)) 0).length
        ≤ List.count 0 [0, 1, 0])
      ∧ fromSource 0 (mergeRun (fun j => ([[1, 2], [3]].getD j [] : List Nat)) [0, 1, 0]).1
        = (fun j => ([[1, 2], [3]].getD j [] : List Nat)) 0 :=
  ⟨by decide,
   (C7_merge_exactly_once_in_order Nat (fun j => [[1, 2], [3]].getD j []) [0, 1, 0] 0).2
     (by decide)⟩

/-! ### Claim C8 -/

/-- C8 fails as stated: in the `fills` Stream Session of the standalone
script, two distinct subscribe attempts (connection cycles 0 and 1) place
the same constant `'test'` in the `id` of the auth and subscribe frames —
not a fresh random token per attempt. -/
theorem C8_fills_constant_tag_counterexample :
    (fills_outbound (fun k => k) "pub" "sec" 0).1.lookup "id"
        = (fills_outbound (fun k => k) "pub" "sec" 1).1.lookup "id"
      ∧ (fills_outbound (fun k => k) "pub" "sec" 0).1.lookup "id"
        = some (JVal.atom (JAtom.str "test"))
      ∧ (fills_outbound (fun k => k) "pub" "sec" 0).2.lookup "id"
        = some (JVal.atom (JAtom.str "test")) :=
  have h0 : (fills_outbound (fun k => k) "pub" "sec" 0).1.lookup "id"
      = some (JVal.atom (JAtom.str "test")) := rfl
  have h1 : (fills_outbound (fun k => k) "pub" "sec" 1).1.lookup "id"
      = some (JVal.atom (JAtom.str "test")) := rfl
  ⟨h0.trans h1.symm, h0, rfl⟩

/-- C8 (amended): in `private_stream` — the session the woostream CLI runs —
the correlation tag of attempt `n` is the token drawn from the random source
freshly for that attempt (one `secrets.token_urlsafe(8)` call per
connection cycle), so any two attempts whose drawn tokens differ carry
distinct tags; the `fills` session of the standalone script instead uses
the fixed constant `'test'`. -/
theorem C8_private_stream_fresh_tag (tokens : Nat → String) (clock : Nat → Nat)
    (pub sec topic : String) (m n : Nat) :
    ((private_stream_outbound tokens clock pub sec topic m).1.lookup "id"
        = some (JVal.atom (JAtom.str (tokens m))))
      ∧ ((fills_outbound clock pub sec m).1.lookup "id"
        = some (JVal.atom (JAtom.str "test")))
      ∧ (tokens m ≠ tokens n →
          (private_stream_outbound tokens clock pub sec topic m).1.lookup "id"
            ≠ (private_stream_outbound tokens clock pub sec topic n).1.lookup "id") := by
  refine ⟨rfl, rfl, fun hne heq => ?_⟩
  have heq' : some (JVal.atom (JAtom.str (tokens m)))
      = some (JVal.atom (JAtom.str (tokens n))) := heq
  exact hne (JAtom.str.inj (JVal.atom.inj (Option.some.inj heq')))

/-- Witness for C8: with distinct drawn tokens, attempts 0 and 1 of
`private_stream` carry distinct tags. -/
theorem C8_private_stream_fresh_tag_witness :
    (pyTimestamp 0 ≠ pyTimestamp 1)
      ∧ (private_stream_outbound (fun k => pyTimestamp k) (fun _ => 1000)
            "pub" "sec" "position" 0).1.lookup "id"
        ≠ (private_stream_outbound (fun k => pyTimestamp k) (fun _ => 1000)
            "pub" "sec" "position" 1).1.lookup "id" :=
  ⟨by decide,
   (C8_private_stream_fresh_tag (fun k => pyTimestamp k) (fun _ => 1000)
     "pub" "sec" "position" 0 1).2.2 (by decide)⟩

/-! ### Claim C9 -/

/-- C9 fails as stated: the `fills` Stream Session of the standalone script
authenticates and subscribes, yet opens its WebSocket connection to the
PUBLIC URL template of the endpoint set, not the private one. -/
theorem C9_fills_public_url_counterexample :
    ((fills_outbound (fun k => k) "pub" "sec" 0).1.lookup "event"
        = some (JVal.atom (JAtom.str "auth")))
      ∧ ((fills_outbound (fun k => k) "pub" "sec" 0).2.lookup "event"
        = some (JVal.atom (JAtom.str "subscribe")))
      ∧ fills_url Network.mainnet "app" = "wss://wss.woo.org/ws/stream/app"
      ∧ fills_url Network.mainnet "app"
        ≠ pyFormat (ENDPOINTS Network.mainnet).WS_PRIVATE "app" :=
  ⟨rfl, rfl, by decide, by decide⟩

/-- C9 (amended): `private_stream` — the session the woostream CLI runs —
opens its connection to `{wsPrivateBase}/{applicationId}`, the private WS
URL template of the selected network's endpoint set with the application id
substituted; the `fills` session of the standalone script, although it also
authenticates and subscribes, connects to the public template instead. -/
theorem C9_private_stream_private_url (network : Network) (app : String) :
    private_stream_url network app = pyFormat (ENDPOINTS network).WS_PRIVATE app
      ∧ fills_url network app = pyFormat (ENDPOINTS network).WS_PUBLIC app
      ∧ private_stream_url Network.mainnet "my-app"
        = "wss://wss.woo.org/v2/ws/private/stream/my-app"
      ∧ private_stream_url Network.testnet "my-app"
        = "wss://wss.staging.woo.org/v2/ws/private/stream/my-app" :=
  ⟨rfl, rfl, by decide, by decide⟩

/-! ### Claim C10 -/

/-- C10: within one connection attempt of `private_stream`, the auth frame
and the subscribe frame carry the same correlation tag in their `id` fields
— the one token drawn for that attempt, not one fresh token per frame. -/
theorem C10_same_tag_for_auth_and_subscribe (tokens : Nat → String)
    (clock : Nat → Nat) (pub sec topic : String) (n : Nat) :
    ((private_stream_outbound tokens clock pub sec topic n).1.lookup "id"
        = some (JVal.atom (JAtom.str (tokens n))))
      ∧ ((private_stream_outbound tokens clock pub sec topic n).2.lookup "id"
        = some (JVal.atom (JAtom.str (tokens n))))
      ∧ (private_stream_outbound tokens clock pub sec topic n).1.lookup "id"
        = (private_stream_outbound tokens clock pub sec topic n).2.lookup "id" :=
  ⟨rfl, rfl, rfl⟩

end Woostream
